import Mathlib

/-!
# Verification of the lektor-groupby-plugin grouping engine

Shallow embedding of the grouping engine of the `lektor-groupby-plugin`
repository.  Python values that flow through the engine (record field
values, grouping-callback yields, group keys) are modelled by the
inductive type `PyVal`; Python `dict`s are modelled by insertion-ordered
association lists (or by functions where only lookup semantics matter);
Python exceptions are modelled with `Except`.  External host-framework
(Lektor) primitives that the plugin calls — Jinja expression evaluation,
the URL slug transform, the pagination page counter — are passed in as
function parameters or, where a claim depends on their behaviour,
modelled from the specification text (each such definition is marked).
-/

set_option autoImplicit false

namespace LektorGroupby

/-- Python values handled by the grouping engine: strings, booleans,
integers (standing in for Python numbers), `None`, 2-tuples
`(group, extra)` as yielded by grouping callbacks, and the `Ellipsis`
sentinel used by the flat implementation's `_eval` error path. -/
inductive PyVal where
  | pstr : String → PyVal
  | pbool : Bool → PyVal
  | pint : Int → PyVal
  | pnone : PyVal
  | ptuple : PyVal → PyVal → PyVal
  | ellipsis : PyVal
deriving DecidableEq, Repr

/-- Python truthiness for the values modelled by `PyVal`. -/
def py_truthy : PyVal → Bool
  | .pstr s => s ≠ ""
  | .pbool b => b
  | .pint n => n ≠ 0
  | .pnone => false
  | .ptuple _ _ => true
  | .ellipsis => true

/-! ## Python string primitives used by the plugin -/

/-- Python `s.startswith(pre)`. -/
def py_startswith (s pre : String) : Bool := pre.data.isPrefixOf s.data

/-- Python `s.endswith(suf)`. -/
def py_endswith (s suf : String) : Bool := suf.data.isSuffixOf s.data

/-- Python `s.lstrip('/')`: drop all leading slashes. -/
def py_lstrip_slash (s : String) : String := String.mk (s.data.dropWhile (· = '/'))

/-- Python `s.rstrip('/')`: drop all trailing slashes. -/
def py_rstrip_slash (s : String) : String :=
  String.mk (s.data.reverse.dropWhile (· = '/')).reverse

/-- Python `s.strip('/')`: drop slashes on both ends. -/
def py_strip_slash (s : String) : String := py_lstrip_slash (py_rstrip_slash s)

/-- Python `s[:-n]` for `n ≤ len(s)`: drop the last `n` characters. -/
def py_slice_neg (s : String) (n : Nat) : String :=
  String.mk (s.data.take (s.data.length - n))

/-- The substring of `s` after its last `'/'` — Python
`s.rsplit('/', 1)[-1]`. -/
def after_last_slash (s : String) : String :=
  String.mk (s.data.reverse.takeWhile (· ≠ '/')).reverse

/-! ## util.py -/

/-- Update of a counting table (a Python `dict` with `0` standing for
"key absent"), as performed by `tmp[k] = num` in `most_used_key`. -/
def muk_bump {α : Type} [DecidableEq α] (cnt : α → Nat) (k : α) : α → Nat :=
  fun x => if x = k then cnt k + 1 else cnt x

/-- The scanning loop of `util.most_used_key` (`for k in keys: ...`).
`cnt` is the occurrence table `tmp` (`cnt x = 0` models `x not in tmp`,
so `num = (tmp[k] + 1) if k in tmp else 1` is `cnt k + 1`). -/
def muk_loop {α : Type} [DecidableEq α] :
    List α → (α → Nat) → Nat → Option α → Option α
  | [], _, _, best_key => best_key
  | k :: rest, cnt, best_count, best_key =>
    if cnt k + 1 > best_count then
      muk_loop rest (muk_bump cnt k) (cnt k + 1) (some k)
    else
      muk_loop rest (muk_bump cnt k) best_count best_key

/-- `util.most_used_key`: `keys[0] if keys else None` for fewer than
three elements, otherwise the counting scan. -/
def most_used_key {α : Type} [DecidableEq α] (keys : List α) : Option α :=
  if keys.length < 3 then keys.head?
  else muk_loop keys (fun _ => 0) 0 none

/-- `util.split_strip`: split by delimiter, strip each part, omit empty
parts.  (Python `str.split(delim)` for non-empty `delim` is
`String.splitOn`; `str.strip()` is `String.trim`.) -/
def split_strip (data : String) (delimiter : String) : List String :=
  ((data.splitOn delimiter).map String.trim).filter (· ≠ "")

/-- `util.insert_before_ext`: insert `ins` before the last occurrence of
`'.'`.  The source asserts that a `'.'` is present; every caller in the
plugin checks this first, and for dot-free input this model leaves the
insertion at the front, a case no caller reaches. -/
def insert_before_ext (data ins : String) : String :=
  let rev := data.data.reverse
  match rev.dropWhile (· ≠ '.') with
  | [] => data ++ ins
  | _ :: pre => String.mk (pre.reverse ++ ins.data ++ ('.' :: (rev.takeWhile (· ≠ '.')).reverse))

/-- `util.build_url`: join path components with `'/'`, stripping slashes
from each and skipping empty ones; append a trailing `'/'` unless the
last segment contains a `'.'`; an empty result becomes `"/"`. -/
def build_url (parts : List String) : String :=
  let url := parts.foldl
    (fun url comp =>
      let txt := py_strip_slash comp
      if txt = "" then url else url ++ "/" ++ txt) ""
  let url2 := if (after_last_slash url).data.contains '.' then url else url ++ "/"
  if url2 = "" then "/" else url2

/-! ## watcher.py -/

/-- `watcher.FieldKeyPath` (a `NamedTuple`). -/
structure FieldKeyPath where
  fieldKey : String
  flowIndex : Option Nat := none
  flowKey : Option String := none
deriving DecidableEq, Repr

/-- A Lektor content record as the watcher sees it: its `path` and its
alternate-language tag (two distinct Python record objects may share a
path, e.g. across pads; the watcher dedupes by `path` only). -/
structure Record where
  path : String
  alt : String := ""
deriving DecidableEq, Repr

/-- The `tmp` accumulator of `Watcher.process`: an insertion-ordered
`Dict[GroupKey, List[object]]`. -/
abbrev GDict := List (PyVal × List PyVal)

/-- `if group not in tmp: tmp[group] = []` -/
def ensure_key (tmp : GDict) (group : PyVal) : GDict :=
  if tmp.any (·.1 = group) then tmp else tmp ++ [(group, [])]

/-- `tmp[group].append(extra)` (the key is present when called). -/
def append_extra (tmp : GDict) (group : PyVal) (extra : PyVal) : GDict :=
  tmp.map (fun p => if p.1 = group then (p.1, p.2 ++ [extra]) else p)

/-- The yield-consuming loop inside `Watcher.process`: each value the
callback produces is checked (`isinstance(obj, (str, tuple))`, else
`raise TypeError`), its group key is registered, and a tuple's second
component is appended as extra data.  The slug sent back into the
generator (`_gen.send(self.config.slugify(group))`) does not touch the
accumulator, so the callback's complete yield sequence is taken as a
plain list. -/
def process_yields (tmp : GDict) : List PyVal → Except String GDict
  | [] => .ok tmp
  | obj :: rest =>
    match obj with
    | .pstr s => process_yields (ensure_key tmp (.pstr s)) rest
    | .ptuple group extra =>
        process_yields (append_extra (ensure_key tmp group) group extra) rest
    | _ => .error "Unsupported groupby yield"

/-- `watcher.State`: `state` is `Dict[GroupKey, Dict[Record, List[object]]]`
and `_processed` is the set of record paths already handled. -/
structure State where
  state : List (PyVal × List (Record × List PyVal)) := []
  processed : List String := []
deriving DecidableEq, Repr

/-- `State.__contains__`: `record.path in self._processed`. -/
def State.containsRec (st : State) (record : Record) : Bool :=
  st.processed.contains record.path

/-- `self.state[group_key][record] = extras` — replace or append in the
inner record dict. -/
def inner_set (d : List (Record × List PyVal)) (r : Record) (extras : List PyVal) :
    List (Record × List PyVal) :=
  if d.any (·.1 = r) then d.map (fun p => if p.1 = r then (r, extras) else p)
  else d ++ [(r, extras)]

/-- One iteration of the `for group_key, extras in group.items()` loop of
`State.add`. -/
def state_insert (s : List (PyVal × List (Record × List PyVal)))
    (group_key : PyVal) (r : Record) (extras : List PyVal) :
    List (PyVal × List (Record × List PyVal)) :=
  if s.any (·.1 = group_key) then
    s.map (fun p => if p.1 = group_key then (p.1, inner_set p.2 r extras) else p)
  else s ++ [(group_key, [(r, extras)])]

/-- `State.add`: append groups if the record path was not processed
already, and mark the path as processed. -/
def State.add (st : State) (record : Record) (group : GDict) : State :=
  if st.processed.contains record.path then st
  else
    { state := group.foldl (fun acc g => state_insert acc g.1 record g.2) st.state,
      processed := record.path :: st.processed }

/-- The field loop of `Watcher.process`: run the callback for every
`(FieldKeyPath, value)` pair the model reader produced. -/
def process_fields (record : Record)
    (callback : Record → FieldKeyPath → PyVal → List PyVal) :
    List (FieldKeyPath × PyVal) → GDict → Except String GDict
  | [], tmp => .ok tmp
  | (key, field) :: rest, tmp =>
    match process_yields tmp (callback record key field) with
    | .ok tmp2 => process_fields record callback rest tmp2
    | .error e => .error e

/-- `Watcher.process`: skip an already-processed record (by path),
otherwise accumulate all callback yields into `tmp` and commit with
`State.add`.  A `TypeError` escaping the loop aborts before the commit.
The model reader and the grouping callback are parameters. -/
def process (reader : Record → List (FieldKeyPath × PyVal))
    (callback : Record → FieldKeyPath → PyVal → List PyVal)
    (st : State) (record : Record) : Except String State :=
  if st.containsRec record then .ok st
  else
    match process_fields record callback (reader record) [] with
    | .ok tmp => .ok (st.add record tmp)
    | .error e => .error e

/-! ## plugin.py -/

/-- The quick-config grouping callback `_fn` registered by
`GroupByPlugin._load_quick_config`.  A non-empty string is split by the
configured delimiter (each part stripped) or yielded whole; booleans and
numbers are yielded as-is; a falsy value (`None`, `''`, `False`, `0`)
yields `None`; any other value yields nothing. -/
def quick_cb (split : Option String) (field : PyVal) : List PyVal :=
  match field with
  | .pstr s =>
      if s ≠ "" then
        match split with
        | some d => if d ≠ "" then (s.splitOn d).map (fun x => .pstr x.trim) else [.pstr s]
        | none => [.pstr s]
      else [.pnone]
  | .pbool _ => [field]
  | .pint _ => [field]
  | .pnone => [.pnone]
  | .ptuple _ _ => []
  | .ellipsis => []

/-! ## config.py -/

/-- The root normalization in `Config.__init__`:
`self.root = (root or '/').rstrip('/') or '/'`. -/
def normRoot (root : Option String) : String :=
  let r0 := root.getD ""
  let r1 := py_rstrip_slash (if r0 = "" then "/" else r0)
  if r1 = "" then "/" else r1

/-- `Watcher.should_process`: `p.startswith(self._root) or p + '/' == self._root`,
where `_root` is the watcher's `Config.root`. -/
def should_process (root p : String) : Bool :=
  py_startswith p root || (p ++ "/") == root

/-- Spec-side predicate (from the claim's words, not from the source):
the record's path is under, or exactly equals, the configured root. -/
def isUnderOrEqual (root p : String) : Bool :=
  p == root || py_startswith p (if root == "/" then "/" else root ++ "/")

/-- `key_map.get(k, k)`. -/
def py_dict_get (m : List (String × String)) (k : String) : String :=
  ((m.find? (·.1 = k)).map (·.2)).getD k

/-- `Config.slugify`: `rv = self.key_map.get(k, k); return _slugify(rv) or rv`.
The host framework's `lektor.utils.slugify` is the parameter `slugFn`. -/
def Config.slugify (slugFn : String → String) (key_map : List (String × String))
    (k : String) : String :=
  let rv := py_dict_get key_map k
  let s := slugFn rv
  if s = "" then rv else s

/-- Modelled from the spec: `lektor.utils.slugify` is host-framework code
(not in src/); the spec describes it as "lower-case, ASCII-safe,
whitespace/punctuation to hyphens".  Letters and digits are kept
lower-cased, every other character becomes a hyphen, runs of hyphens are
collapsed and stripped at both ends. -/
def spec_slugify (s : String) : String :=
  let mapped := s.data.map (fun c => if c.isAlphanum then c.toLower else '-')
  let collapsed := mapped.foldr
    (fun c acc => if c = '-' && acc.headD '-' = '-' then acc else c :: acc) []
  String.mk (collapsed.dropWhile (· = '-'))

/-- A `ConfigError` / `report_config_error` payload: grouping key, field
name, raw expression and the underlying exception (as text). -/
structure ConfigError where
  key : String
  field : String
  expr : String
  error : String
deriving DecidableEq, Repr

/-- `Config._make_expression`: building the Jinja `Expression` may fail
(the `construct` parameter models `Expression(on.pad.env, expr)`); any
exception is re-raised as a `ConfigError` carrying full context. -/
def make_expression (cfg_key field expr : String)
    (construct : String → Except String Unit) : Except ConfigError String :=
  match construct expr with
  | .ok _ => .ok expr
  | .error e => .error ⟨cfg_key, field, expr, e⟩

/-- `Config.eval_slug`: empty slug template → `None`; a template with a
`{key}` placeholder is substituted textually (raising `ConfigError` when
the key is empty); otherwise the template is compiled
(`_make_expression`) and evaluated (`evaluate` models
`expr.evaluate(on.pad, this=on, alt=on.alt)`), with a falsy result
coerced to `None` (`... or None`). -/
def Config.eval_slug (cfg_key cfg_slug key : String)
    (construct : String → Except String Unit)
    (evaluate : String → PyVal) : Except ConfigError (Option PyVal) :=
  if cfg_slug = "" then .ok none
  else if decide (List.IsInfix "{key}".data cfg_slug.data) then
    if key = "" then
      .error ⟨cfg_key, "slug", cfg_slug, "Cannot replace {key} with None"⟩
    else .ok (some (.pstr (cfg_slug.replace "{key}" key)))
  else
    match make_expression cfg_key "slug" cfg_slug construct with
    | .error err => .error err
    | .ok e =>
        let v := evaluate e
        .ok (if py_truthy v then some v else none)

/-! ## Flat implementation (src/lektor_groupby.py) -/

/-- `GroupBySource._eval` of the flat implementation: evaluate the
expression (`evaluator` models `Expression(pad.env, value).evaluate`);
on any exception, call `report_config_error(key, field, value, e)` and
return the `Ellipsis` sentinel.  The result pairs the value with the
reports emitted. -/
def GroupBySource_eval (cfg_key field value : String)
    (evaluator : String → Except String PyVal) : PyVal × List ConfigError :=
  match evaluator value with
  | .ok v => (v, [])
  | .error e => (.ellipsis, [⟨cfg_key, field, value, e⟩])

/-- The slug computation in the flat `GroupBySource.__init__`:
`self.slug = self._eval(config.slug, field='slug')`, then
`assert self.slug != Ellipsis` (modelled as an `Except` error, since a
failing assertion aborts the build), then the `'/index.html'` suffix is
trimmed from a truthy string slug. -/
def init_slug (cfg_key cfg_slug : String)
    (evaluator : String → Except String PyVal) :
    Except String (PyVal × List ConfigError) :=
  let r := GroupBySource_eval cfg_key "slug" cfg_slug evaluator
  if r.1 = .ellipsis then .error ("invalid config: " ++ cfg_slug)
  else
    match r.1 with
    | .pstr s =>
        .ok (.pstr (if s ≠ "" && py_endswith s "/index.html" then py_slice_neg s 10 else s), r.2)
    | v => .ok (v, r.2)

/-! ## resolver.py -/

/-- `resolver.ResolverEntry` (a `NamedTuple`; the `config` reference is
represented by the config's grouping key and root). -/
structure ResolverEntry where
  key : String
  key_obj : PyVal
  config_key : String
  config_root : String
  page : Option Nat
deriving DecidableEq, Repr

/-- `Resolver._data`: `Dict[str, Dict[str, ResolverEntry]]`, modelled as
a partial map from grouping key to its URL index. -/
abbrev ResolverData := String → Option (List (String × ResolverEntry))

/-- `Resolver.reset`: `if key:` is Python truthiness, so both `None` and
the empty string take the `else` branch and run `self._data.clear()`;
a truthy key runs `del self._data[key]` (guarded by an existence check,
which the partial-map model makes a no-op). -/
def Resolver.reset (data : ResolverData) (key : Option String) : ResolverData :=
  match key with
  | some k =>
      if k = "" then fun _ => none
      else fun k2 => if k2 = k then none else data k2
  | none => fun _ => none

/-! ## pruner.py -/

/-- `pruner._normalize_urls`: append `'index.html'` to URLs ending in
`'/'` and strip leading slashes.  (The Python function builds a `set`;
the model keeps the list and reasons about membership.) -/
def normalize_urls (urls : List String) : List String :=
  urls.map (fun url =>
    py_lstrip_slash (if py_endswith url "/" then url ++ "index.html" else url))

/-- The deletion set of `pruner.prune`:
`to_be_pruned = previous.difference(current)` where `previous` is the
set of previously recorded plugin artifacts and `current` the normalized
current build URLs.  Exactly these files are pruned and removed from the
build database. -/
def prune_selection (previous current : List String) : List String :=
  previous.filter (fun f => !((normalize_urls current).contains f))

/-! ## pagination.py and vobj.py -/

/-- Modelled from the spec: `lektor.datamodel.PaginationConfig.count_pages`
is host-framework code (not in src/); the spec states "the number of
generated pages is `ceil(N/P)`".  The repo's `PaginationConfig` override
only fixes `count_total_items` to the group's child count `total`. -/
def count_pages (total per_page : Nat) : Nat :=
  (total + per_page - 1) / per_page

/-- `GroupBySource.__iter_pagination_sources__`: when pagination is
enabled and the object is the unpaginated parent (`page_num is None`),
yield one 1-indexed `GroupBySourcePage` wrapper per page; the wrappers
are represented by their page numbers. -/
def iter_pagination_sources (enabled : Bool) (page_num : Option Nat)
    (total per_page : Nat) : List Nat :=
  if enabled && page_num == none then
    (List.range (count_pages total per_page)).map (· + 1)
  else []

/-- The `self.page_num and self.page_num > 1` test of
`GroupBySource.url_path` (`None` and `0` are falsy). -/
def pageGT1 : Option Nat → Bool
  | some n => n > 1
  | none => false

/-- `GroupBySource.url_path`: pick the base (site root for an absolute
slug, else the owning record's URL); a falsy slug gives just the base;
for page numbers above 1 the pagination `url_suffix` is inserted before
the slug's file extension, or appended as extra path segments; otherwise
the slug is appended as-is.  A page-wrapper delegates `slug`, `record`
and `config` to its parent, so `record_url`, `root_url`, `url_suffix`
and `slug` are those of the parent and only `page_num` varies. -/
def url_path (record_url root_url url_suffix : String) (slug : Option String)
    (page_num : Option Nat) : String :=
  let s := slug.getD ""
  let parts := if s ≠ "" && py_startswith s "/" then [root_url] else [record_url]
  if s = "" then build_url parts
  else if pageGT1 page_num then
    if (after_last_slash s).data.contains '.' then
      build_url (parts ++ [insert_before_ext s (url_suffix ++ toString ((page_num.getD 0)))])
    else
      build_url (parts ++ [s, url_suffix, toString (page_num.getD 0)])
  else
    build_url (parts ++ [s])

/-! ## Spec-side reference definitions for util.most_used_key -/

/-- Maximum of `f` over a list (0 for the empty list). -/
def fold_max {α : Type} (f : α → Nat) (l : List α) : Nat :=
  l.foldr (fun k acc => max (f k) acc) 0

/-- The highest occurrence count in `keys`. -/
def max_count {α : Type} [DecidableEq α] (keys : List α) : Nat :=
  fold_max (fun x => keys.count x) keys

/-- Spec-side (from the claim's words, not from the source): the value
with the highest occurrence count, ties broken by first occurrence in
the list; fewer than three elements short-circuit to the first. -/
def most_used_key_claimed {α : Type} [DecidableEq α] (keys : List α) : Option α :=
  if keys.length < 3 then keys.head?
  else keys.find? (fun k => keys.count k = max_count keys)

/-- The value whose running occurrence count is the first to attain `m`
in a left-to-right scan starting from the counting table `cnt`. -/
def first_to_attain {α : Type} [DecidableEq α] (m : Nat) :
    List α → (α → Nat) → Option α
  | [], _ => none
  | k :: rest, cnt =>
    if cnt k + 1 = m then some k else first_to_attain m rest (muk_bump cnt k)

/-! ## Shared helper lemmas -/

theorem containsRec_iff (st : State) (r : Record) :
    st.containsRec r = true ↔ r.path ∈ st.processed := by
  simp [State.containsRec, List.contains, List.elem_iff]

theorem process_of_containsRec (reader : Record → List (FieldKeyPath × PyVal))
    (callback : Record → FieldKeyPath → PyVal → List PyVal)
    (st : State) (r : Record) (h : st.containsRec r = true) :
    process reader callback st r = .ok st := by
  unfold process
  rw [h]
  rfl

theorem process_ok_path_processed (reader : Record → List (FieldKeyPath × PyVal))
    (callback : Record → FieldKeyPath → PyVal → List PyVal)
    (st st2 : State) (r : Record)
    (h : process reader callback st r = .ok st2) : r.path ∈ st2.processed := by
  unfold process at h
  by_cases hc : st.containsRec r = true
  · rw [hc] at h
    simp only [if_true] at h
    cases h
    exact (containsRec_iff st r).mp hc
  · rw [Bool.not_eq_true] at hc
    rw [hc] at h
    simp only [Bool.false_eq_true, if_false] at h
    cases hpf : process_fields r callback (reader r) [] with
    | ok tmp =>
        rw [hpf] at h
        cases h
        unfold State.add
        have hcf : st.processed.contains r.path = false := hc
        rw [hcf]
        simp
    | error e => rw [hpf] at h; cases h

/-! ## Claim theorems -/

/-- **C1.** Once a record has been processed (its path is in the processed
set of the watcher's `State`), any further `Watcher.process` call with a
record of the same path returns the accumulated state completely
unchanged, for every model reader and grouping callback. -/
theorem process_at_most_once (reader : Record → List (FieldKeyPath × PyVal))
    (callback : Record → FieldKeyPath → PyVal → List PyVal)
    (st st2 : State) (r r2 : Record)
    (hrun : process reader callback st r = .ok st2)
    (hpath : r2.path = r.path) :
    process reader callback st2 r2 = .ok st2 := by
  have hmem : r.path ∈ st2.processed := process_ok_path_processed _ _ _ _ _ hrun
  have hc : st2.containsRec r2 = true := by
    rw [containsRec_iff, hpath]
    exact hmem
  exact process_of_containsRec _ _ _ _ hc

/-- Witness for C1 at a concrete run: processing `/post1` once and then a
second record object with the same path leaves the state untouched. -/
theorem process_at_most_once_witness :
    process (fun _ => [(⟨"tags", none, none⟩, .pstr "a")]) (fun _ _ f => [f])
      { state := [(.pstr "a", [(⟨"/post1", "en"⟩, [])])], processed := ["/post1"] }
      ⟨"/post1", "de"⟩
    = .ok { state := [(.pstr "a", [(⟨"/post1", "en"⟩, [])])], processed := ["/post1"] } :=
  process_at_most_once (fun _ => [(⟨"tags", none, none⟩, .pstr "a")]) (fun _ _ f => [f])
    { state := [], processed := [] }
    { state := [(.pstr "a", [(⟨"/post1", "en"⟩, [])])], processed := ["/post1"] }
    ⟨"/post1", "en"⟩ ⟨"/post1", "de"⟩ (by rfl) (by rfl)

/-- **C10.** Adding a not-yet-processed record with an empty group mapping
(`State.add` with `group = {}`) marks the record's path as processed
while leaving the group-key-to-children mapping unchanged, and a later
`process` call for the same path is a no-op. -/
theorem state_add_empty_group (st : State) (r r2 : Record)
    (hnot : st.processed.contains r.path = false)
    (hpath : r2.path = r.path) :
    (st.add r []).state = st.state
    ∧ (st.add r []).containsRec r2 = true
    ∧ ∀ (reader : Record → List (FieldKeyPath × PyVal))
        (callback : Record → FieldKeyPath → PyVal → List PyVal),
        process reader callback (st.add r []) r2 = .ok (st.add r []) := by
  have hadd : st.add r [] = { state := st.state, processed := r.path :: st.processed } := by
    unfold State.add
    rw [hnot]
    rfl
  have hc : (st.add r []).containsRec r2 = true := by
    rw [containsRec_iff, hadd, hpath]
    exact List.mem_cons_self _ _
  exact ⟨by rw [hadd], hc, fun reader callback => process_of_containsRec _ _ _ _ hc⟩

/-- Witness for C10 at a concrete state and record. -/
theorem state_add_empty_group_witness :
    ((State.mk [(.pstr "a", [(⟨"/other", ""⟩, [])])] ["/other"]).add ⟨"/post1", "en"⟩ []).state
      = [(.pstr "a", [(⟨"/other", ""⟩, [])])]
    ∧ ((State.mk [(.pstr "a", [(⟨"/other", ""⟩, [])])] ["/other"]).add
        ⟨"/post1", "en"⟩ []).containsRec ⟨"/post1", "de"⟩ = true
    ∧ process (fun _ => []) (fun _ _ _ => [])
        ((State.mk [(.pstr "a", [(⟨"/other", ""⟩, [])])] ["/other"]).add ⟨"/post1", "en"⟩ [])
        ⟨"/post1", "de"⟩
      = .ok ((State.mk [(.pstr "a", [(⟨"/other", ""⟩, [])])] ["/other"]).add ⟨"/post1", "en"⟩ []) :=
  ⟨(state_add_empty_group (State.mk [(.pstr "a", [(⟨"/other", ""⟩, [])])] ["/other"])
      ⟨"/post1", "en"⟩ ⟨"/post1", "de"⟩ (by rfl) (by rfl)).1,
   (state_add_empty_group (State.mk [(.pstr "a", [(⟨"/other", ""⟩, [])])] ["/other"])
      ⟨"/post1", "en"⟩ ⟨"/post1", "de"⟩ (by rfl) (by rfl)).2.1,
   (state_add_empty_group (State.mk [(.pstr "a", [(⟨"/other", ""⟩, [])])] ["/other"])
      ⟨"/post1", "en"⟩ ⟨"/post1", "de"⟩ (by rfl) (by rfl)).2.2 _ _⟩

/-- **C4.** The in-src `Watcher.process` raises `TypeError` for every
yielded value that is not a string or tuple — including `None`, booleans
and numbers, which the spec (and the package's own quick-config callback
in `plugin.py`, which yields them by design) treat as supported.  At the
failing input — a record whose watched field is empty, so that the
quick-config callback yields `None` — processing aborts with the hard
error instead of accepting the value. -/
theorem quick_config_none_yield_raises :
    quick_cb none .pnone = [.pnone]
    ∧ process (fun _ => [(⟨"tags", none, none⟩, .pnone)]) (fun _ _ f => quick_cb none f)
        { state := [], processed := [] } ⟨"/post1", "en"⟩
      = .error "Unsupported groupby yield"
    ∧ process (fun _ => [(⟨"flag", none, none⟩, .pbool true)]) (fun _ _ f => quick_cb none f)
        { state := [], processed := [] } ⟨"/post2", "en"⟩
      = .error "Unsupported groupby yield" :=
  ⟨rfl, rfl, rfl⟩

/-- **C9 counterexample.** At the empty grouping key — constructible via
`add_watcher` from the `before-build-all` hook — `reset("")` does not
remove only that key's entries: the Python `if key:` test is false for
the empty string, so the `else` branch clears the entire index, wiping
the entries of the unrelated key `"tag"`. -/
theorem resolver_reset_empty_key_counterexample :
    Resolver.reset (fun k => if k = "tag" then some [] else none) (some "") "tag" = none
    ∧ (fun k => if k = "tag" then some [] else none) "tag"
        = some ([] : List (String × ResolverEntry)) :=
  ⟨rfl, rfl⟩

/-- **C9 (amended).** For every non-empty grouping key `k`,
`Resolver.reset` removes exactly the index entries belonging to `k` and
leaves the entries of every other grouping key unchanged; `reset` with
no key — or with the falsy empty-string key, which Python's `if key:`
treats like no key — clears all entries. -/
theorem resolver_reset_frame (data : ResolverData) (k : String) (hk : k ≠ "") :
    Resolver.reset data (some k) k = none
    ∧ (∀ k2, k2 ≠ k → Resolver.reset data (some k) k2 = data k2)
    ∧ (∀ k2, Resolver.reset data none k2 = none)
    ∧ (∀ k2, Resolver.reset data (some "") k2 = none) :=
  ⟨by simp [Resolver.reset, hk],
   fun k2 h => by simp [Resolver.reset, hk, h],
   fun _ => rfl,
   fun _ => rfl⟩

/-- Witness for C9 (amended) at a concrete resolver index. -/
theorem resolver_reset_frame_witness :
    Resolver.reset (fun k => if k = "tag" then some [] else none) (some "tag") "tag" = none
    ∧ Resolver.reset (fun k => if k = "tag" then some [] else none) (some "tag") "cat"
      = (fun k => if k = "tag" then some [] else none) "cat"
    ∧ Resolver.reset (fun k => if k = "tag" then some [] else none) none "tag" = none :=
  ⟨(resolver_reset_frame (fun k => if k = "tag" then some [] else none) "tag" (by decide)).1,
   (resolver_reset_frame (fun k => if k = "tag" then some [] else none) "tag" (by decide)).2.1
      "cat" (by decide),
   (resolver_reset_frame (fun k => if k = "tag" then some [] else none) "tag" (by decide)).2.2.1
      "tag"⟩

/-- **C6.** The pruner deletes exactly the set difference `A - B` of the
previously recorded plugin URLs `A` and the normalized current-build
URLs `B`: membership in the deletion set is `∈ A ∧ ∉ B`, every URL of
`B` is preserved, and the deletion set does not depend on the iteration
order of either input. -/
theorem prune_exact_difference (previous current prev2 cur2 : List String)
    (hp : previous.Perm prev2) (hc : current.Perm cur2) :
    (∀ u, u ∈ prune_selection previous current
        ↔ u ∈ previous ∧ u ∉ normalize_urls current)
    ∧ (∀ u, u ∈ normalize_urls current → u ∉ prune_selection previous current)
    ∧ (∀ u, u ∈ prune_selection prev2 cur2 ↔ u ∈ prune_selection previous current) := by
  have hmem : ∀ (a b : List String) (u : String),
      u ∈ prune_selection a b ↔ u ∈ a ∧ u ∉ normalize_urls b := by
    intro a b u
    simp [prune_selection, List.mem_filter, List.contains, List.elem_iff]
  refine ⟨hmem previous current, ?_, ?_⟩
  · intro u hu hmem2
    exact (((hmem previous current u).mp hmem2).2) hu
  · intro u
    rw [hmem prev2 cur2, hmem previous current]
    have hperm : (normalize_urls current).Perm (normalize_urls cur2) :=
      List.Perm.map _ hc
    exact and_congr hp.mem_iff.symm (not_congr hperm.mem_iff.symm)

/-- Witness for C6 on concrete, permuted URL sets. -/
theorem prune_exact_difference_witness :
    ("tag/old/index.html" ∈
        prune_selection ["tag/a/index.html", "tag/old/index.html"] ["/tag/a/"]
      ↔ "tag/old/index.html" ∈ (["tag/a/index.html", "tag/old/index.html"] : List String)
        ∧ "tag/old/index.html" ∉ normalize_urls ["/tag/a/"])
    ∧ ("tag/old/index.html" ∈
        prune_selection ["tag/old/index.html", "tag/a/index.html"] ["/tag/a/"]
      ↔ "tag/old/index.html" ∈
        prune_selection ["tag/a/index.html", "tag/old/index.html"] ["/tag/a/"]) :=
  ⟨(prune_exact_difference ["tag/a/index.html", "tag/old/index.html"] ["/tag/a/"]
      ["tag/old/index.html", "tag/a/index.html"] ["/tag/a/"]
      (List.Perm.swap _ _ _) (List.Perm.refl _)).1 "tag/old/index.html",
   (prune_exact_difference ["tag/a/index.html", "tag/old/index.html"] ["/tag/a/"]
      ["tag/old/index.html", "tag/a/index.html"] ["/tag/a/"]
      (List.Perm.swap _ _ _) (List.Perm.refl _)).2.2 "tag/old/index.html"⟩

/-- **C7.** With pagination enabled, page size `P > 0` and `N` children,
the finalized parent yields exactly `ceil(N/P)` page-wrapper sub-objects
(`count_pages` is characterized as the ceiling: `count ≤ m ↔ N ≤ m·P`),
and the `url_path` of the page-1 wrapper equals the `url_path` of the
unpaginated parent (the suffix is inserted only for pages ≥ 2). -/
theorem pagination_count_and_page1_url (total per_page : Nat) (hP : 0 < per_page)
    (record_url root_url url_suffix : String) (slug : Option String) :
    (iter_pagination_sources true none total per_page).length
      = count_pages total per_page
    ∧ (∀ m, count_pages total per_page ≤ m ↔ total ≤ m * per_page)
    ∧ url_path record_url root_url url_suffix slug (some 1)
      = url_path record_url root_url url_suffix slug none := by
  refine ⟨by simp [iter_pagination_sources], ?_, ?_⟩
  · intro m
    unfold count_pages
    rw [Nat.div_le_iff_le_mul_add_pred hP, Nat.mul_comm m per_page]
    generalize per_page * m = q
    omega
  · unfold url_path
    have h1 : pageGT1 (some 1) = false := rfl
    have h2 : pageGT1 none = false := rfl
    rw [h1, h2]
    simp only [Bool.false_eq_true, if_false]

/-- Witness for C7: seven children, three per page. -/
theorem pagination_count_and_page1_url_witness :
    (iter_pagination_sources true none 7 3).length = count_pages 7 3
    ∧ (count_pages 7 3 ≤ 3 ↔ 7 ≤ 3 * 3)
    ∧ url_path "/blog" "/" "page" (some "tag/a") (some 1)
      = url_path "/blog" "/" "page" (some "tag/a") none :=
  ⟨(pagination_count_and_page1_url 7 3 (by decide) "/blog" "/" "page" (some "tag/a")).1,
   (pagination_count_and_page1_url 7 3 (by decide) "/blog" "/" "page" (some "tag/a")).2.1 3,
   (pagination_count_and_page1_url 7 3 (by decide) "/blog" "/" "page" (some "tag/a")).2.2⟩

/-- **C2 counterexample.** `should_process` is a raw string-prefix test:
with configured root `/blog`, the sibling path `/blogging` — which is
neither under nor equal to the root — is accepted, refuting the claimed
"true iff under or equal" equivalence. -/
theorem should_process_counterexample :
    should_process (normRoot (some "/blog")) "/blogging" = true
    ∧ isUnderOrEqual (normRoot (some "/blog")) "/blogging" = false :=
  ⟨rfl, rfl⟩

/-- **C2 (amended).** Every record whose path is under, or exactly equals,
the configured (normalized) root is accepted by `should_process`; the
converse fails because the check is a plain string-prefix test. -/
theorem should_process_complete (root : Option String) (p : String)
    (h : isUnderOrEqual (normRoot root) p = true) :
    should_process (normRoot root) p = true := by
  unfold isUnderOrEqual at h
  rw [Bool.or_eq_true] at h
  unfold should_process
  rw [Bool.or_eq_true]
  cases h with
  | inl h =>
    left
    have hp : p = normRoot root := by
      have := (beq_iff_eq (a := p) (b := normRoot root)).mp h
      exact this
    rw [hp]
    unfold py_startswith
    exact List.isPrefixOf_iff_prefix.mpr (List.prefix_refl _)
  | inr h =>
    left
    by_cases hr : normRoot root == "/"
    · rw [if_pos hr] at h
      have : normRoot root = "/" := beq_iff_eq.mp hr
      rw [this]
      exact h
    · rw [if_neg hr] at h
      unfold py_startswith at h ⊢
      rw [List.isPrefixOf_iff_prefix] at h ⊢
      refine List.IsPrefix.trans ?_ h
      rw [String.data_append]
      exact List.prefix_append _ _


/-- Witness for C2 (amended): `/blog/post` is under root `/blog`. -/
theorem should_process_complete_witness :
    should_process (normRoot (some "/blog")) "/blog/post" = true :=
  should_process_complete (some "/blog") "/blog/post" (by rfl)

/-- **C8 counterexample.** With the key-remapping table
`{"x": "y", "y": "z"}` the slugification operation is not stable:
`slugify("x") = "y"` but `slugify(slugify("x")) = "z"`, because the
`key_map` substitution applies again to the first result. -/
theorem slugify_not_stable :
    Config.slugify spec_slugify [("x", "y"), ("y", "z")]
        (Config.slugify spec_slugify [("x", "y"), ("y", "z")] "x")
      ≠ Config.slugify spec_slugify [("x", "y"), ("y", "z")] "x" := by
  decide

/-- **C8 (amended).** `Config.slugify` is stable whenever the `key_map`
does not remap the result of the first application and the slug
transform is idempotent at the remapped input (both hold in particular
for an empty `key_map` with the standard slug transform). -/
theorem slugify_stable (slugFn : String → String)
    (key_map : List (String × String)) (k : String)
    (h1 : py_dict_get key_map (Config.slugify slugFn key_map k)
      = Config.slugify slugFn key_map k)
    (h2 : slugFn (slugFn (py_dict_get key_map k)) = slugFn (py_dict_get key_map k)) :
    Config.slugify slugFn key_map (Config.slugify slugFn key_map k)
      = Config.slugify slugFn key_map k := by
  have expand : ∀ q : String, Config.slugify slugFn key_map q =
      if slugFn (py_dict_get key_map q) = "" then py_dict_get key_map q
      else slugFn (py_dict_get key_map q) := fun _ => rfl
  by_cases hz : slugFn (py_dict_get key_map k) = ""
  · have hfst : Config.slugify slugFn key_map k = py_dict_get key_map k := by
      rw [expand, if_pos hz]
    rw [hfst] at h1 ⊢
    rw [expand, h1, if_pos hz]
  · have hfst : Config.slugify slugFn key_map k = slugFn (py_dict_get key_map k) := by
      rw [expand, if_neg hz]
    rw [hfst] at h1 ⊢
    rw [expand, h1, h2, if_neg hz]

/-- Witness for C8 (amended): a key_map that does not touch slug outputs. -/
theorem slugify_stable_witness :
    Config.slugify spec_slugify [("x", "y")]
        (Config.slugify spec_slugify [("x", "y")] "Hello World")
      = Config.slugify spec_slugify [("x", "y")] "Hello World" :=
  slugify_stable spec_slugify [("x", "y")] "Hello World" (by decide) (by decide)

/-- **C5 counterexample.** A slug expression that fails to evaluate does
crash the build: the flat implementation's `GroupBySource.__init__`
fails its `assert self.slug != Ellipsis` after the error is reported,
and the package's `Config.eval_slug` raises `ConfigError`, which no code
in the plugin catches. -/
theorem slug_error_crashes :
    init_slug "tag" "this.bad" (fun _ => .error "ZeroDivisionError")
      = .error "invalid config: this.bad"
    ∧ Config.eval_slug "tag" "this.bad" "k" (fun _ => .error "SyntaxError")
        (fun _ => .pnone)
      = .error ⟨"tag", "slug", "this.bad", "SyntaxError"⟩ := by
  constructor
  · rfl
  · unfold Config.eval_slug make_expression
    rw [if_neg (by decide : ¬("this.bad" : String) = "")]
    rw [if_neg (by decide)]

/-- **C5 (amended).** When an expression fails to evaluate, the failure
is always identified with full `(key, field, expression, error)`
context: a failing extra-field expression is caught, reported through
`report_config_error`, and resolves to the `Ellipsis` sentinel without
aborting (flat `GroupBySource._eval`); a failing slug expression,
however, does not merely resolve to a sentinel — the flat implementation
aborts on its assertion and the package implementation raises an
uncaught `ConfigError`. -/
theorem expr_error_reported (cfg_key field value e keyv : String)
    (ev : String → Except String PyVal)
    (construct : String → Except String Unit) (evaluate : String → PyVal)
    (hev : ev value = .error e) (hc : construct value = .error e)
    (hne : ¬value = "")
    (hnk : ¬decide (List.IsInfix "{key}".data value.data) = true) :
    GroupBySource_eval cfg_key field value ev
      = (.ellipsis, [⟨cfg_key, field, value, e⟩])
    ∧ init_slug cfg_key value ev = .error ("invalid config: " ++ value)
    ∧ Config.eval_slug cfg_key value keyv construct evaluate
      = .error ⟨cfg_key, "slug", value, e⟩ := by
  have hg : GroupBySource_eval cfg_key field value ev
      = (.ellipsis, [⟨cfg_key, field, value, e⟩]) := by
    unfold GroupBySource_eval
    rw [hev]
  refine ⟨hg, ?_, ?_⟩
  · unfold init_slug GroupBySource_eval
    rw [hev]
    rfl
  · unfold Config.eval_slug make_expression
    rw [if_neg hne, if_neg hnk, hc]

/-- Witness for C5 (amended) at a concrete failing expression. -/
theorem expr_error_reported_witness :
    GroupBySource_eval "tag" "fields.title" "this.bad"
        (fun _ => .error "UndefinedError")
      = (.ellipsis, [⟨"tag", "fields.title", "this.bad", "UndefinedError"⟩])
    ∧ init_slug "tag" "this.bad" (fun _ => .error "UndefinedError")
      = .error ("invalid config: " ++ "this.bad")
    ∧ Config.eval_slug "tag" "this.bad" "k" (fun _ => .error "UndefinedError")
        (fun _ => .pnone)
      = .error ⟨"tag", "slug", "this.bad", "UndefinedError"⟩ :=
  expr_error_reported "tag" "fields.title" "this.bad" "UndefinedError" "k"
    (fun _ => .error "UndefinedError") (fun _ => .error "UndefinedError")
    (fun _ => .pnone) rfl rfl (by decide) (by decide)

/-! ## Lemmas about util.most_used_key -/

theorem muk_bump_add_count {α : Type} [DecidableEq α]
    (cnt : α → Nat) (k x : α) (rest : List α) :
    muk_bump cnt k x + rest.count x = cnt x + (k :: rest).count x := by
  unfold muk_bump
  rw [List.count_cons]
  by_cases h : x = k
  · subst h
    simp
    omega
  · rw [if_neg h, if_neg (by simp [beq_iff_eq]; exact fun hk => h hk.symm)]
    omega

theorem muk_loop_eq {α : Type} [DecidableEq α] (rest : List α) :
    ∀ (cnt : α → Nat) (bc : Nat) (bk : Option α) (M : Nat),
      (∀ x, cnt x ≤ bc) →
      (∀ x, cnt x + rest.count x ≤ M) →
      (∃ x, cnt x + rest.count x = M) →
      muk_loop rest cnt bc bk
        = if bc < M then first_to_attain M rest cnt else bk := by
  induction rest with
  | nil =>
    intro cnt bc bk M hle hub hex
    obtain ⟨x, hx⟩ := hex
    rw [List.count_nil] at hx
    have : ¬bc < M := by
      have := hle x
      omega
    rw [if_neg this]
    rfl
  | cons k rest ih =>
    intro cnt bc bk M hle hub hex
    have hself := hub k
    rw [List.count_cons_self] at hself
    have hnum_le : cnt k + 1 ≤ M := by omega
    have hub2 : ∀ x, muk_bump cnt k x + rest.count x ≤ M := fun x => by
      rw [muk_bump_add_count]
      exact hub x
    have hex2 : ∃ x, muk_bump cnt k x + rest.count x = M := by
      obtain ⟨x, hx⟩ := hex
      exact ⟨x, by rw [muk_bump_add_count]; exact hx⟩
    rw [muk_loop]
    by_cases hgt : cnt k + 1 > bc
    · rw [if_pos hgt]
      have hle2 : ∀ x, muk_bump cnt k x ≤ cnt k + 1 := fun x => by
        unfold muk_bump
        by_cases h : x = k
        · rw [if_pos h]
        · rw [if_neg h]
          exact le_trans (hle x) (by omega)
      rw [ih _ _ _ M hle2 hub2 hex2]
      have hbcM : bc < M := lt_of_lt_of_le hgt hnum_le
      rw [if_pos hbcM, first_to_attain]
      by_cases heq : cnt k + 1 = M
      · rw [if_pos heq, if_neg (by omega)]
      · rw [if_neg heq, if_pos (by omega)]
    · rw [if_neg hgt]
      have hle2 : ∀ x, muk_bump cnt k x ≤ bc := fun x => by
        unfold muk_bump
        by_cases h : x = k
        · rw [if_pos h]
          omega
        · rw [if_neg h]
          exact hle x
      rw [ih _ _ _ M hle2 hub2 hex2]
      by_cases hbcM : bc < M
      · rw [if_pos hbcM, if_pos hbcM, first_to_attain, if_neg (by omega)]
      · rw [if_neg hbcM, if_neg hbcM]

theorem first_to_attain_total {α : Type} [DecidableEq α] (rest : List α) :
    ∀ (cnt : α → Nat) (M : Nat),
      (∀ x, cnt x + rest.count x ≤ M) →
      (∃ x, cnt x + rest.count x = M) →
      (∀ x, cnt x < M) →
      ∃ r, first_to_attain M rest cnt = some r ∧ cnt r + rest.count r = M := by
  induction rest with
  | nil =>
    intro cnt M hub hex hlt
    obtain ⟨x, hx⟩ := hex
    rw [List.count_nil] at hx
    exact absurd hx (by have := hlt x; omega)
  | cons k rest ih =>
    intro cnt M hub hex hlt
    have hself := hub k
    rw [List.count_cons_self] at hself
    rw [first_to_attain]
    by_cases heq : cnt k + 1 = M
    · refine ⟨k, by rw [if_pos heq], ?_⟩
      rw [List.count_cons_self]
      omega
    · rw [if_neg heq]
      have hub2 : ∀ x, muk_bump cnt k x + rest.count x ≤ M := fun x => by
        rw [muk_bump_add_count]
        exact hub x
      have hex2 : ∃ x, muk_bump cnt k x + rest.count x = M := by
        obtain ⟨x, hx⟩ := hex
        exact ⟨x, by rw [muk_bump_add_count]; exact hx⟩
      have hlt2 : ∀ x, muk_bump cnt k x < M := fun x => by
        unfold muk_bump
        by_cases h : x = k
        · rw [if_pos h]
          omega
        · rw [if_neg h]
          exact hlt x
      obtain ⟨r, h1, h2⟩ := ih _ M hub2 hex2 hlt2
      rw [muk_bump_add_count] at h2
      exact ⟨r, h1, h2⟩

theorem fold_max_cons {α : Type} (f : α → Nat) (a : α) (l : List α) :
    fold_max f (a :: l) = max (f a) (fold_max f l) := rfl

theorem le_fold_max {α : Type} (f : α → Nat) (l : List α) (x : α)
    (h : x ∈ l) : f x ≤ fold_max f l := by
  induction l with
  | nil => cases h
  | cons a t ih =>
    rw [fold_max_cons]
    rcases List.mem_cons.mp h with h1 | h2
    · subst h1
      exact Nat.le_max_left _ _
    · exact le_trans (ih h2) (Nat.le_max_right _ _)

theorem fold_max_attained {α : Type} (f : α → Nat) (l : List α)
    (h : l ≠ []) : ∃ x ∈ l, f x = fold_max f l := by
  induction l with
  | nil => exact absurd rfl h
  | cons a t ih =>
    cases t with
    | nil =>
      refine ⟨a, List.mem_cons_self _ _, ?_⟩
      rw [fold_max_cons]
      simp [fold_max]
    | cons b t2 =>
      obtain ⟨x, hx, hfx⟩ := ih (by simp)
      rw [fold_max_cons]
      by_cases hle : fold_max f (b :: t2) ≤ f a
      · exact ⟨a, List.mem_cons_self _ _, (Nat.max_eq_left hle).symm⟩
      · refine ⟨x, List.mem_cons_of_mem _ hx, ?_⟩
        rw [Nat.max_eq_right (le_of_not_le hle)]
        exact hfx

theorem count_le_max_count {α : Type} [DecidableEq α] (keys : List α) (x : α) :
    keys.count x ≤ max_count keys := by
  by_cases h : x ∈ keys
  · exact le_fold_max (fun y => keys.count y) keys x h
  · rw [List.count_eq_zero.mpr h]
    exact Nat.zero_le _

theorem max_count_attained {α : Type} [DecidableEq α] (keys : List α)
    (h : keys ≠ []) : ∃ x, keys.count x = max_count keys := by
  obtain ⟨x, _, hx⟩ := fold_max_attained (fun x => keys.count x) keys h
  exact ⟨x, hx⟩

theorem max_count_pos {α : Type} [DecidableEq α] (keys : List α)
    (h : keys ≠ []) : 0 < max_count keys := by
  cases keys with
  | nil => exact absurd rfl h
  | cons a t =>
    refine lt_of_lt_of_le ?_ (count_le_max_count (a :: t) a)
    rw [List.count_cons_self]
    omega

/-- **C3 counterexample.** On `["b", "a", "a", "b"]` both values occur
twice, and `"b"` occurs first — yet `most_used_key` returns `"a"`,
because its scan favours the value whose running count reaches the
maximum first, not the value with the earliest first occurrence. -/
theorem most_used_key_counterexample :
    most_used_key ["b", "a", "a", "b"] = some "a"
    ∧ most_used_key_claimed ["b", "a", "a", "b"] = some "b"
    ∧ List.count "a" ["b", "a", "a", "b"] = List.count "b" ["b", "a", "a", "b"] := by
  refine ⟨?_, ?_, ?_⟩ <;> decide

/-- **C3 (amended).** For every non-empty list: fewer than three elements
short-circuit to the first element without counting; for three or more,
the function returns a value with the highest occurrence count, ties
broken in favour of the value whose running count is the first to attain
that maximum during the left-to-right scan (not the value with the
earliest first occurrence). -/
theorem most_used_key_spec {α : Type} [DecidableEq α] (keys : List α)
    (hne : keys ≠ []) :
    (keys.length < 3 → most_used_key keys = keys.head?)
    ∧ (3 ≤ keys.length →
        ∃ r, most_used_key keys = some r
          ∧ keys.count r = max_count keys
          ∧ first_to_attain (max_count keys) keys (fun _ => 0) = some r) := by
  constructor
  · intro h
    unfold most_used_key
    rw [if_pos h]
  · intro h3
    have hnotlt : ¬keys.length < 3 := by omega
    have hub : ∀ x, (fun _ => 0 : α → Nat) x + keys.count x ≤ max_count keys :=
      fun x => by simpa using count_le_max_count keys x
    have hex : ∃ x, (fun _ => 0 : α → Nat) x + keys.count x = max_count keys := by
      obtain ⟨x, hx⟩ := max_count_attained keys hne
      exact ⟨x, by simpa using hx⟩
    have hpos := max_count_pos keys hne
    obtain ⟨r, hr1, hr2⟩ :=
      first_to_attain_total keys (fun _ => 0) (max_count keys) hub hex (fun _ => hpos)
    refine ⟨r, ?_, by simpa using hr2, hr1⟩
    unfold most_used_key
    rw [if_neg hnotlt,
      muk_loop_eq keys (fun _ => 0) 0 none (max_count keys) (fun _ => le_refl 0) hub hex,
      if_pos hpos, hr1]

/-- Witness for C3 (amended) on the concrete list `["b", "a", "a", "b"]`. -/
theorem most_used_key_spec_witness :
    ∃ r, most_used_key ["b", "a", "a", "b"] = some r
      ∧ List.count r ["b", "a", "a", "b"] = max_count ["b", "a", "a", "b"]
      ∧ first_to_attain (max_count ["b", "a", "a", "b"]) ["b", "a", "a", "b"]
          (fun _ => 0) = some r :=
  (most_used_key_spec ["b", "a", "a", "b"] (by decide)).2 (by decide)

end LektorGroupby
